import Mathlib

/-!
Shallow embedding of the SADPMR GRAP financial reporting engine
(`src/models/grap_models.py`, `src/services/validation_service.py`,
`src/services/file_service.py`, `src/utils/helpers.py`,
`src/utils/constants.py`, and the processing route in
`src/controllers/routes.py`).

Monetary amounts are modelled as rationals.  Tables are modelled as lists
of typed rows; pandas group-by aggregation is modelled as a fold that
accumulates one line item per `(grap_code, grap_item)` key.  The pandas
group-by sorts its keys while the fold keeps first-occurrence order; every
property stated below is order-independent, so this difference is
immaterial.  Pandas `str.contains` with an alternation pattern is modelled
as substring containment of each alternative.
-/

namespace FinReport

/-- Boolean test that `pat` is a prefix of `t`, on character lists. -/
def charsPre : List Char → List Char → Bool
  | [], _ => true
  | _ :: _, [] => false
  | p :: ps, t :: ts => p = t && charsPre ps ts

/-- Boolean test that `pat` occurs as a contiguous substring of `t`. -/
def charsSub : List Char → List Char → Bool
  | pat, [] => pat.isEmpty
  | pat, c :: rest => charsPre pat (c :: rest) || charsSub pat rest

/-- Substring containment on strings: pandas `Series.str.contains(pat)`
with a plain (single-alternative) pattern, and Python `pat in s`. -/
def containsSub (s pat : String) : Bool := charsSub pat.toList s.toList

/-- Python `s.startswith(pat)`. -/
def startsWithS (s pat : String) : Bool := charsPre pat.toList s.toList

/-- A raw cell value of the account-code column: Excel/CSV input may hold
either numbers or text, and pandas `astype(str)` coerces both. -/
inductive CellVal where
  | intV : Int → CellVal
  | strV : String → CellVal
  deriving DecidableEq

/-- Python `str()` applied to a cell of the account-code column. -/
def pyStr : CellVal → String
  | .intV n => toString n
  | .strV s => s

/-- One normalized trial-balance row (after `import_trial_balance` /
`read_trial_balance_file`): the canonical columns `Account Code`,
`Account Description`, `Debit Balance`, `Credit Balance`, `Net Balance`. -/
structure TBRow where
  code : CellVal
  desc : String
  debit : ℚ
  credit : ℚ
  net : ℚ
  deriving DecidableEq

/-- Build a normalized row whose net balance is debit minus credit, as
`import_trial_balance` computes it when no precomputed column exists. -/
def mkTBRow (code : CellVal) (desc : String) (debit credit : ℚ) : TBRow :=
  ⟨code, desc, debit, credit, debit - credit⟩

/-- One row of the merged table produced by `map_to_grap`: the trial-balance
row joined (left join) with its mapping entry, or with nulls if unmapped. -/
structure MappedAccount where
  accountCode : String
  accountDescription : String
  netBalance : ℚ
  grapCode : Option String
  grapItem : Option String
  deriving DecidableEq

/-- One aggregated line item: a `(grap_code, grap_item)` group with the sum
of the net balances of its accounts. -/
structure LineItem where
  grapCode : String
  grapItem : String
  amount : ℚ
  deriving DecidableEq

/-- The static account-to-GRAP mapping table of
`GRAPMappingEngine._load_mapping_schema`, as `(key, grap_code, grap_item)`
triples in source order. -/
def mappingSchema : List (String × String × String) :=
  [ ("1000", "CA-001", "Cash and Cash Equivalents"),
    ("1100", "CA-001", "Cash and Cash Equivalents"),
    ("1200", "CA-002", "Receivables from Exchange Transactions"),
    ("1210", "CA-002", "Receivables from Exchange Transactions"),
    ("1250", "CA-002", "Receivables from Exchange Transactions"),
    ("1300", "CA-004", "Inventories"),
    ("1400", "CA-003", "Receivables from Non-Exchange Transactions"),
    ("1500", "CA-005", "Prepayments"),
    ("1600", "NCA-001", "Property, Plant and Equipment"),
    ("1700", "NCA-002", "Intangible Assets"),
    ("1800", "NCA-003", "Investments"),
    ("2000", "CL-001", "Payables from Exchange Transactions"),
    ("2100", "CL-002", "Employee Benefit Obligations (Current)"),
    ("2200", "CL-003", "Provisions (Current)"),
    ("2300", "NCL-001", "Employee Benefit Obligations (Non-Current)"),
    ("2400", "NCL-002", "Provisions (Non-Current)"),
    ("3000", "NA-001", "Accumulated Surplus/(Deficit)"),
    ("4000", "REV-002", "Revenue from Non-Exchange Transactions"),
    ("4100", "REV-001", "Revenue from Exchange Transactions"),
    ("4200", "REV-001", "Revenue from Exchange Transactions"),
    ("5000", "EXP-001", "Employee Costs"),
    ("5100", "EXP-001", "Employee Costs"),
    ("5200", "EXP-001", "Employee Costs"),
    ("6000", "EXP-003", "General Expenses"),
    ("6100", "EXP-002", "Depreciation and Amortisation"),
    ("6200", "EXP-004", "Finance Costs"),
    ("6300", "EXP-003", "General Expenses") ]

/-- Exact-string lookup of an account code in the mapping table (the merge
key of `map_to_grap`; keys are unique so the first match is the match). -/
def lookupMapping (code : String) : Option (String × String) :=
  (mappingSchema.find? (fun e => e.1 = code)).map (fun e => e.2)

/-- Join of one trial-balance row against the mapping table: the row-level
effect of the left merge in `map_to_grap`.  The account code is coerced to
its string representation first (`astype(str)`); a code with no matching
key yields null `grap_code` and `grap_item`. -/
def classify (r : TBRow) : MappedAccount :=
  match lookupMapping (pyStr r.code) with
  | some (gc, gi) => ⟨pyStr r.code, r.desc, r.net, some gc, some gi⟩
  | none => ⟨pyStr r.code, r.desc, r.net, none, none⟩

/-- In-place coercion of a row's account code to a string, the column
assignment `trial_balance_df['Account Code'] = ...astype(str)` performed by
`map_to_grap` on its input table. -/
def coerceRow (r : TBRow) : TBRow :=
  { r with code := .strV (pyStr r.code) }

/-- The engine's `map_to_grap`: returns the state of the input table after
the call (its account-code column coerced to strings in place) together
with the merged table. -/
def mapToGrap (tb : List TBRow) : List TBRow × List MappedAccount :=
  (tb.map coerceRow, tb.map classify)

/-- State of the engine's mapping table after `map_to_grap` re-assigns its
key column through `astype(str)`: every key, already a string literal, is
re-coerced by Python `str()`. -/
def mappingSchemaAfter : List (String × String × String) :=
  mappingSchema.map (fun e => (pyStr (.strV e.1), e.2))

/-- Insert an account's net balance into the accumulating line-item list:
add to the existing `(grap_code, grap_item)` group or open a new one. -/
def addTo : List LineItem → String → String → ℚ → List LineItem
  | [], gc, gi, v => [⟨gc, gi, v⟩]
  | li :: rest, gc, gi, v =>
      if li.grapCode = gc ∧ li.grapItem = gi then
        ⟨li.grapCode, li.grapItem, li.amount + v⟩ :: rest
      else
        li :: addTo rest gc gi v

/-- One fold step of the group-by: rows whose key is null are dropped, as
pandas `groupby` drops null keys. -/
def aggStep (acc : List LineItem) (a : MappedAccount) : List LineItem :=
  match a.grapCode, a.grapItem with
  | some gc, some gi => addTo acc gc gi a.netBalance
  | _, _ => acc

/-- The `groupby(['grap_code', 'grap_item'])['Net Balance'].sum()` shared by
both statement generators. -/
def aggregate (m : List MappedAccount) : List LineItem :=
  m.foldl aggStep []

/-- Sum of the amount column of a line-item list. -/
def amountSum (l : List LineItem) : ℚ := (l.map (fun li => li.amount)).sum

/-- Absolute value applied to a line item's amount, the
`['Amount'].abs()` presentation step. -/
def absItem (li : LineItem) : LineItem := { li with amount := |li.amount| }

/-- Asset filter of `generate_statement_of_financial_position`:
`str.contains('CA-|NCA-')`, substring containment of either alternative. -/
def isAssetCode (c : String) : Bool := containsSub c "CA-" || containsSub c "NCA-"

/-- Liability filter: `str.contains('CL-|NCL-')`. -/
def isLiabCode (c : String) : Bool := containsSub c "CL-" || containsSub c "NCL-"

/-- Net-assets filter: `str.contains('NA-')`. -/
def isNACode (c : String) : Bool := containsSub c "NA-"

/-- Revenue filter of `generate_statement_of_performance`:
`str.contains('REV-')`. -/
def isRevCode (c : String) : Bool := containsSub c "REV-"

/-- Expense filter: `str.contains('EXP-')`. -/
def isExpCode (c : String) : Bool := containsSub c "EXP-"

/-- Statement of Financial Position: the three line-item groups. -/
structure SOFP where
  assets : List LineItem
  liabilities : List LineItem
  netAssets : List LineItem
  deriving DecidableEq

/-- Statement of Financial Performance: revenue, expenses, surplus. -/
structure SOFE where
  revenue : List LineItem
  expenses : List LineItem
  surplus : ℚ
  deriving DecidableEq

/-- The engine's `generate_statement_of_financial_position`: group, split by
code filters, and take liabilities and net assets in absolute value. -/
def sofpOf (m : List MappedAccount) : SOFP :=
  let items := aggregate m
  ⟨ items.filter (fun li => isAssetCode li.grapCode),
    (items.filter (fun li => isLiabCode li.grapCode)).map absItem,
    (items.filter (fun li => isNACode li.grapCode)).map absItem ⟩

/-- The engine's `generate_statement_of_performance`: group, split into
revenue (absolute value) and expenses (natural sign), surplus is total
revenue minus total expenses. -/
def sofeOf (m : List MappedAccount) : SOFE :=
  let items := aggregate m
  let revenue := (items.filter (fun li => isRevCode li.grapCode)).map absItem
  let expenses := items.filter (fun li => isExpCode li.grapCode)
  ⟨revenue, expenses, amountSum revenue - amountSum expenses⟩

/-- Round-half-to-even of a rational to an integer, Python `round(x)`. -/
def rhe (q : ℚ) : ℤ :=
  let f := ⌊q⌋
  if q - f < 1 / 2 then f
  else if 1 / 2 < q - f then f + 1
  else if f % 2 = 0 then f else f + 1

/-- Python `round(x, 2)`. -/
def round2 (q : ℚ) : ℚ := ((rhe (q * 100) : ℤ) : ℚ) / 100

/-- The four ratios of `GRAPMappingEngine.calculate_ratios`. -/
structure RatioSet where
  currentRatio : ℚ
  debtToEquity : ℚ
  operatingMargin : ℚ
  returnOnAssets : ℚ
  deriving DecidableEq

/-- Current-liabilities total used by the ratio engine:
liabilities whose GRAP code contains `CL-`. -/
def currentLiabilitiesOf (s : SOFP) : ℚ :=
  amountSum (s.liabilities.filter (fun li => containsSub li.grapCode "CL-"))

/-- Current-assets total used by the ratio engine. -/
def currentAssetsOf (s : SOFP) : ℚ :=
  amountSum (s.assets.filter (fun li => containsSub li.grapCode "CA-"))

/-- Net-assets total of a Statement of Financial Position. -/
def netAssetsTotalOf (s : SOFP) : ℚ := amountSum s.netAssets

/-- Assets total of a Statement of Financial Position. -/
def assetsTotalOf (s : SOFP) : ℚ := amountSum s.assets

/-- Liabilities total of a Statement of Financial Position. -/
def liabilitiesTotalOf (s : SOFP) : ℚ := amountSum s.liabilities

/-- Revenue total of a Statement of Financial Performance. -/
def revenueTotalOf (s : SOFE) : ℚ := amountSum s.revenue

/-- Expenses total of a Statement of Financial Performance. -/
def expensesTotalOf (s : SOFE) : ℚ := amountSum s.expenses

/-- The engine's `calculate_ratios`: each division guarded by a strict
positivity test of its denominator, with fallback value 0. -/
def calcRatios (sofp : SOFP) (sofe : SOFE) : RatioSet :=
  let totalAssets := assetsTotalOf sofp
  let currentAssets := currentAssetsOf sofp
  let totalLiabilities := liabilitiesTotalOf sofp
  let currentLiabilities := currentLiabilitiesOf sofp
  let totalRevenue := revenueTotalOf sofe
  let totalExpenses := expensesTotalOf sofe
  let netAssets := netAssetsTotalOf sofp
  ⟨ if 0 < currentLiabilities then round2 (currentAssets / currentLiabilities) else 0,
    if 0 < netAssets then round2 (totalLiabilities / netAssets) else 0,
    if 0 < totalRevenue then round2 ((totalRevenue - totalExpenses) / totalRevenue * 100) else 0,
    if 0 < totalAssets then round2 (sofe.surplus / totalAssets * 100) else 0 ⟩

/-- Statistics returned by `ValidationService.validate_grap_mapping` on
success. -/
structure MapStats where
  totalAccounts : ℕ
  mappedAccounts : ℕ
  unmappedAccounts : ℕ
  deriving DecidableEq

/-- The structured content of a raised `MappingError`: the count reported in
its message and the first unmapped account code it carries. -/
structure MappingErr where
  count : ℕ
  accountCode : Option String
  deriving DecidableEq

/-- The unmapped-account record surfaced to the caller:
`{account_code, account_description, net_balance}`. -/
structure UnmappedRec where
  accountCode : String
  accountDescription : String
  netBalance : ℚ
  deriving DecidableEq

/-- Projection of a mapped account to the unmapped-account payload shape. -/
def toRec (a : MappedAccount) : UnmappedRec :=
  ⟨a.accountCode, a.accountDescription, a.netBalance⟩

/-- The service's `validate_grap_mapping`: raises a `MappingError` carrying
the unmapped count and the first unmapped account's code whenever any
unmapped account remains, and returns the counts otherwise. -/
def validateGrapMapping (m : List MappedAccount) : Except MappingErr MapStats :=
  match m.filter (fun a => a.grapCode.isNone) with
  | [] => .ok ⟨m.length, (m.filter (fun a => a.grapCode.isSome)).length, 0⟩
  | u :: rest => .error ⟨(u :: rest).length, some u.accountCode⟩

/-- The statement-generation gate of the `process_trial_balance` route:
when any account has a null grap code the run aborts with the message
`Unmapped accounts detected` and the list of unmapped-account records;
only otherwise are the statements generated. -/
def processGate (m : List MappedAccount) : Except (String × List UnmappedRec) (SOFP × SOFE) :=
  if 0 < (m.filter (fun a => a.grapCode.isNone)).length then
    .error ("Unmapped accounts detected", (m.filter (fun a => a.grapCode.isNone)).map toRec)
  else
    .ok (sofpOf m, sofeOf m)

/-- One raw trial-balance row as seen by
`ValidationService.validate_trial_balance_integrity` (required columns
present; an empty account code is the empty string). -/
structure RawTB where
  code : String
  desc : String
  debit : ℚ
  credit : ℚ
  deriving DecidableEq

/-- The structured content of one validation error or warning message. -/
inductive TBIssue where
  | emptyCodes : ℕ → TBIssue
  | duplicateCodes : ℕ → TBIssue
  | bothBalances : ℕ → TBIssue
  | imbalance : ℚ → ℚ → TBIssue
  | negativeDebits : ℕ → TBIssue
  | negativeCredits : ℕ → TBIssue
  deriving DecidableEq

/-- Result shape of `validate_trial_balance_integrity`. -/
structure VResult where
  valid : Bool
  errors : List TBIssue
  warnings : List TBIssue
  totalAccounts : ℕ
  deriving DecidableEq

/-- The tolerance constant `TRIAL_BALANCE_TOLERANCE`. -/
def tbTolerance : ℚ := 1 / 100

/-- The service's `_check_empty_account_codes` (appended to errors). -/
def emptyCodeIssues (df : List RawTB) : List TBIssue :=
  if (df.filter (fun r => r.code = "")).isEmpty then []
  else [.emptyCodes (df.filter (fun r => r.code = "")).length]

/-- The service's `_check_duplicate_codes` (`duplicated(keep=False)` marks
every row whose code occurs more than once). -/
def duplicateIssues (df : List RawTB) : List TBIssue :=
  if (df.filter (fun r => 2 ≤ (df.filter (fun s => s.code = r.code)).length)).isEmpty then []
  else [.duplicateCodes (df.filter (fun r => 2 ≤ (df.filter (fun s => s.code = r.code)).length)).length]

/-- The service's `_check_balance_calculations`: accounts with both a
nonzero debit and a nonzero credit, then the tolerance check on the debit
and credit totals. -/
def balanceIssues (df : List RawTB) : List TBIssue :=
  (if (df.filter (fun r => r.debit ≠ 0 ∧ r.credit ≠ 0)).isEmpty then []
    else [.bothBalances (df.filter (fun r => r.debit ≠ 0 ∧ r.credit ≠ 0)).length]) ++
    (if tbTolerance < |(df.map (fun r => r.debit)).sum - (df.map (fun r => r.credit)).sum| then
      [.imbalance ((df.map (fun r => r.debit)).sum) ((df.map (fun r => r.credit)).sum)]
    else [])

/-- The service's `_check_negative_values`. -/
def negativeIssues (df : List RawTB) : List TBIssue :=
  (if (df.filter (fun r => r.debit < 0)).isEmpty then []
    else [.negativeDebits (df.filter (fun r => r.debit < 0)).length]) ++
    (if (df.filter (fun r => r.credit < 0)).isEmpty then []
    else [.negativeCredits (df.filter (fun r => r.credit < 0)).length])

/-- The service's `validate_trial_balance_integrity`: empty account codes
extend the errors; duplicates, balance findings and negative balances
extend the warnings; the result is valid exactly when no errors arose. -/
def validateTB (df : List RawTB) : VResult :=
  ⟨(emptyCodeIssues df).isEmpty, emptyCodeIssues df,
    duplicateIssues df ++ balanceIssues df ++ negativeIssues df, df.length⟩

/-- The header rename table `COLUMN_MAPPINGS` (identical to the
`col_mapping` dict of `import_trial_balance`). -/
def colMapping : List (String × String) :=
  [ ("Acc Code", "Account Code"),
    ("AccCode", "Account Code"),
    ("Account", "Account Code"),
    ("Description", "Account Description"),
    ("Debit", "Debit Balance"),
    ("Credit", "Credit Balance") ]

/-- The effect of `df.rename(columns=...)` on one header: a label found in
the rename dict becomes its target, any other label is unchanged. -/
def renameHeader (c : String) : String :=
  ((colMapping.find? (fun e => e.1 = c)).map (fun e => e.2)).getD c

/-- The effect of `df.rename(columns=...)` on the whole header row: every
label is mapped independently (pandas renames unconditionally). -/
def renameCols (cols : List String) : List String :=
  cols.map renameHeader

/-- The column-level logic of `FileService.read_trial_balance_file`: rename
headers, fail when a required column is missing, then ensure a net-balance
column, failing unless both a debit and a credit column are present. -/
def readTBCols (cols : List String) : Except String (List String) :=
  if ¬ ("Account Code" ∈ renameCols cols ∧ "Account Description" ∈ renameCols cols) then
    .error "Missing required columns"
  else if "Net Balance" ∈ renameCols cols then .ok (renameCols cols)
  else if "Debit Balance" ∈ renameCols cols ∧ "Credit Balance" ∈ renameCols cols then
    .ok (renameCols cols ++ ["Net Balance"])
  else .error "File must contain Debit Balance and Credit Balance columns"

/-- The balance data of one source row: debit, credit, and the net balance
when the source already carries a `Net Balance` column. -/
structure SrcBal where
  debit : ℚ
  credit : ℚ
  net : Option ℚ
  deriving DecidableEq

/-- The net balance after `read_trial_balance_file`: computed as debit
minus credit only when the source had no net-balance column. -/
def netAfterRead (r : SrcBal) : ℚ :=
  match r.net with
  | some v => v
  | none => r.debit - r.credit

/-- Cash Flow Statement totals. -/
structure CashFlow where
  operating : ℚ
  investing : ℚ
  financing : ℚ
  netMovement : ℚ
  deriving DecidableEq

/-- Boolean test that an optional grap code starts with a given string. -/
def optStarts (o : Option String) (p : String) : Bool :=
  (o.map (fun s => startsWithS s p)).getD false

/-- Depreciation add-back: the amount of the performance line item whose
grap code is exactly `EXP-002`. -/
def depreciationOf (sofe : SOFE) : ℚ :=
  amountSum (sofe.expenses.filter (fun li => li.grapCode = "EXP-002"))

/-- Receivables movement: net balances of accounts whose grap code has the
string `CA-00` at its start. -/
def receivablesChange (m : List MappedAccount) : ℚ :=
  ((m.filter (fun a => optStarts a.grapCode "CA-00")).map (fun a => a.netBalance)).sum

/-- Payables movement: net balances of accounts whose grap code has the
string `CL-00` at its start. -/
def payablesChange (m : List MappedAccount) : ℚ :=
  ((m.filter (fun a => optStarts a.grapCode "CL-00")).map (fun a => a.netBalance)).sum

/-- Working-capital adjustment of the indirect method. -/
def workingCapitalAdj (m : List MappedAccount) : ℚ :=
  -(receivablesChange m - payablesChange m)

/-- Net balance of property, plant and equipment: accounts whose grap code
is exactly `NCA-001`. -/
def ncaNet (m : List MappedAccount) : ℚ :=
  ((m.filter (fun a => a.grapCode = some "NCA-001")).map (fun a => a.netBalance)).sum

/-- Financing total: net balances of accounts whose grap code has the
string `NCL-` at its start. -/
def financingOf (m : List MappedAccount) : ℚ :=
  ((m.filter (fun a => optStarts a.grapCode "NCL-")).map (fun a => a.netBalance)).sum

/-- Modelled from the spec: the engine method `generate_cash_flow_statement`
is invoked by the `process_trial_balance` route but its definition is
absent from the sources, so the builder is taken from the specification of
`build_cash_flow`: the indirect method starts from the surplus, adds back
depreciation (grap code exactly `EXP-002`) and the working-capital
adjustment; investing recognizes the `NCA-001` net balance only when it is
negative and contributes zero otherwise; financing sums the net balances of
`NCL-` accounts; the net movement is the sum of the three totals. -/
def buildCashFlow (_pos : SOFP) (sofe : SOFE) (m : List MappedAccount) : CashFlow :=
  let operating := sofe.surplus + depreciationOf sofe + workingCapitalAdj m
  let investing := if ncaNet m < 0 then ncaNet m else 0
  let financing := financingOf m
  ⟨operating, investing, financing, operating + investing + financing⟩

/-- The GRAP codes of the mapping table that belong to the Statement of
Financial Position (asset, liability and net-asset families). -/
def sofpCodes : List String :=
  [ "CA-001", "CA-002", "CA-003", "CA-004", "CA-005",
    "NCA-001", "NCA-002", "NCA-003",
    "CL-001", "CL-002", "CL-003", "NCL-001", "NCL-002", "NA-001" ]

/-- Whether a mapped account falls in a group whose grap code satisfies
`P`; accounts with a null key belong to no group, as pandas `groupby`
drops them. -/
def accCat (P : String → Bool) (a : MappedAccount) : Bool :=
  match a.grapCode, a.grapItem with
  | some gc, some _ => P gc
  | _, _ => false

/-- Scenario A of the specification: Cash 1000 debit, Payables 400 credit,
Equity 600 credit (net balances precomputed as debit minus credit). -/
def scenarioA : List TBRow :=
  [ ⟨.strV "1000", "Cash", 1000, 0, 1000⟩,
    ⟨.strV "2000", "Payables", 0, 400, -400⟩,
    ⟨.strV "3000", "Equity", 0, 600, -600⟩ ]

/-- Scenario C of the specification: revenue account 4100 with credit 5000
and expense account 5000 with debit 2000. -/
def scenarioC : List TBRow :=
  [ ⟨.strV "4100", "Sales", 0, 5000, -5000⟩,
    ⟨.strV "5000", "Salaries", 2000, 0, 2000⟩ ]

/-- A balanced, fully mapped trial balance with a debit-balance liability:
a credit of 100 on the cash account and a debit of 100 on the payables
account. -/
def debitLiabRows : List TBRow :=
  [ ⟨.strV "1000", "Cash", 0, 100, -100⟩,
    ⟨.strV "2000", "Payables", 100, 0, 100⟩ ]

/-- A trial-balance table whose single row has an empty account code. -/
def emptyCodeRows : List RawTB :=
  [ ⟨"", "No code", 5, 5⟩ ]

/-- A trial balance exhibiting every warned-about condition at once:
duplicate codes, an account with both balances, an out-of-tolerance total,
and negative debit and credit balances. -/
def warnOnlyRows : List RawTB :=
  [ ⟨"1000", "a", 10, 0⟩,
    ⟨"1000", "b", -5, 3⟩,
    ⟨"2000", "c", 4, -2⟩ ]

/-! ## General lemmas about the embedding -/

/-- Classification never changes the net balance it carries over. -/
theorem classify_net (r : TBRow) : (classify r).netBalance = r.net := by
  unfold classify
  cases h : lookupMapping (pyStr r.code) with
  | none => rfl
  | some p => cases p; rfl

/-- Renaming maps the `Account` variant to `Account Code`. -/
theorem renameHeader_account : renameHeader "Account" = "Account Code" := by decide

/-- Renaming leaves the canonical `Account Code` label unchanged. -/
theorem renameHeader_accountCode : renameHeader "Account Code" = "Account Code" := by decide

/-- Renaming can only be the identity or a lookup hit on the rename table. -/
theorem count_renameCols_ge (cols : List String) :
    cols.count "Account" + cols.count "Account Code" ≤ (renameCols cols).count "Account Code" := by
  induction cols with
  | nil => simp [renameCols]
  | cons c rest ih =>
      have hstep : renameCols (c :: rest) = renameHeader c :: renameCols rest := rfl
      rw [hstep]
      by_cases h1 : c = "Account"
      · subst h1
        rw [renameHeader_account]
        simp only [List.count_cons]
        simp only [beq_iff_eq]
        simp
        omega
      · by_cases h2 : c = "Account Code"
        · subst h2
          rw [renameHeader_accountCode]
          simp only [List.count_cons]
          simp only [beq_iff_eq]
          simp
          omega
        · simp only [List.count_cons]
          simp only [beq_iff_eq]
          rw [if_neg (by simp [h1]), if_neg (by simp [h2])]
          split
          · omega
          · omega

/-- Unfolding lemma for the amount sum of a cons. -/
theorem amountSum_cons (li : LineItem) (l : List LineItem) :
    amountSum (li :: l) = li.amount + amountSum l := by
  simp [amountSum]

/-- Inserting a net balance into the accumulator changes a filtered amount
sum by exactly that balance when the filter accepts the group's code. -/
theorem addTo_filter_sum (P : String → Bool) (items : List LineItem) (gc gi : String) (v : ℚ) :
    amountSum ((addTo items gc gi v).filter (fun li => P li.grapCode))
      = amountSum (items.filter (fun li => P li.grapCode)) + (if P gc then v else 0) := by
  induction items with
  | nil =>
      show amountSum (List.filter (fun li => P li.grapCode) [⟨gc, gi, v⟩]) = _
      cases h : P gc <;> simp [List.filter_cons, h, amountSum]
  | cons li rest ih =>
      unfold addTo
      split
      · rename_i hkey
        obtain ⟨h1, _⟩ := hkey
        rw [← h1]
        rw [List.filter_cons, List.filter_cons]
        cases hp : P li.grapCode
        · simp [hp]
        · simp [hp, amountSum_cons]
          ring
      · rw [List.filter_cons, List.filter_cons]
        cases hp : P li.grapCode
        · simp [hp, ih]
        · simp [hp, amountSum_cons, ih]
          ring

/-- The fold underlying the group-by: a filtered amount sum of the result
is the accumulator's filtered sum plus the net balances of the accounts
whose group key satisfies the filter. -/
theorem foldl_aggStep_filter_sum (P : String → Bool) (m : List MappedAccount) :
    ∀ acc : List LineItem,
      amountSum ((m.foldl aggStep acc).filter (fun li => P li.grapCode))
        = amountSum (acc.filter (fun li => P li.grapCode))
          + ((m.filter (accCat P)).map (fun a => a.netBalance)).sum := by
  induction m with
  | nil => intro acc; simp
  | cons a rest ih =>
      intro acc
      rw [show (a :: rest).foldl aggStep acc = rest.foldl aggStep (aggStep acc a) from rfl]
      rw [ih (aggStep acc a)]
      rw [List.filter_cons]
      cases hgc : a.grapCode with
      | none =>
          have hstep : aggStep acc a = acc := by
            unfold aggStep
            rw [hgc]
          have hcat : accCat P a = false := by
            unfold accCat
            rw [hgc]
          rw [hstep, hcat]
          simp
      | some gc =>
          cases hgi : a.grapItem with
          | none =>
              have hstep : aggStep acc a = acc := by
                unfold aggStep
                rw [hgc, hgi]
              have hcat : accCat P a = false := by
                unfold accCat
                rw [hgc, hgi]
              rw [hstep, hcat]
              simp
          | some gi =>
              have hstep : aggStep acc a = addTo acc gc gi a.netBalance := by
                unfold aggStep
                rw [hgc, hgi]
              have hcat : accCat P a = P gc := by
                unfold accCat
                rw [hgc, hgi]
              rw [hstep, addTo_filter_sum, hcat]
              cases hp : P gc
              · simp [hp]
              · simp [hp]
                ring

/-- A filtered amount sum of the aggregation equals the net-balance sum of
the accounts whose group key satisfies the filter. -/
theorem aggregate_filter_sum (P : String → Bool) (m : List MappedAccount) :
    amountSum ((aggregate m).filter (fun li => P li.grapCode))
      = ((m.filter (accCat P)).map (fun a => a.netBalance)).sum := by
  have h := foldl_aggStep_filter_sum P m []
  simpa [aggregate, amountSum] using h

/-- Taking absolute values of nonpositive line items negates their sum. -/
theorem amountSum_map_absItem (l : List LineItem) (h : ∀ li ∈ l, li.amount ≤ 0) :
    amountSum (l.map absItem) = -amountSum l := by
  induction l with
  | nil => simp [amountSum]
  | cons li rest ih =>
      have h1 : li.amount ≤ 0 := h li (List.mem_cons_self li rest)
      have h2 := ih (fun x hx => h x (List.mem_cons_of_mem li hx))
      rw [List.map_cons, amountSum_cons, amountSum_cons, h2]
      simp [absItem, abs_of_nonpos h1]
      ring

/-- Net-balance sums over two pointwise-disjoint filters add to the sum
over their union. -/
theorem netSum_filter_or (p q : MappedAccount → Bool) (m : List MappedAccount)
    (h : ∀ a ∈ m, ¬(p a = true ∧ q a = true)) :
    ((m.filter (fun a => p a || q a)).map (fun a => a.netBalance)).sum
      = ((m.filter p).map (fun a => a.netBalance)).sum
        + ((m.filter q).map (fun a => a.netBalance)).sum := by
  induction m with
  | nil => simp
  | cons a rest ih =>
      have hrest := ih (fun x hx => h x (List.mem_cons_of_mem a hx))
      have ha := h a (List.mem_cons_self a rest)
      rw [List.filter_cons, List.filter_cons, List.filter_cons]
      cases hp : p a <;> cases hq : q a
      · simp [hrest]
      · simp [hrest]
        ring
      · simp [hrest]
        ring
      · exact absurd ⟨hp, hq⟩ ha

/-- Classification keeps the net-balance column: the merged table's
balances sum to the normalized table's balances. -/
theorem mapped_net_sum (rows : List TBRow) :
    (((mapToGrap rows).2).map (fun a => a.netBalance)).sum
      = (rows.map (fun r => r.net)).sum := by
  show ((rows.map classify).map (fun a => a.netBalance)).sum = _
  rw [List.map_map]
  have h : ((fun a => a.netBalance) ∘ classify) = fun r : TBRow => r.net := by
    funext r
    exact classify_net r
  rw [h]

/-- With the normalizer invariant, the net-balance total is the debit
total minus the credit total. -/
theorem net_sum_split (rows : List TBRow) (h : ∀ r ∈ rows, r.net = r.debit - r.credit) :
    (rows.map (fun r => r.net)).sum
      = (rows.map (fun r => r.debit)).sum - (rows.map (fun r => r.credit)).sum := by
  induction rows with
  | nil => simp
  | cons r rest ih =>
      have h1 := h r (List.mem_cons_self r rest)
      have h2 := ih (fun x hx => h x (List.mem_cons_of_mem r hx))
      simp [h1, h2]
      ring

/-- Every financial-position code of the mapping table falls in exactly
one of the three presentation filters. -/
theorem sofp_code_cases : ∀ c ∈ sofpCodes,
    (isAssetCode c = true ∧ isLiabCode c = false ∧ isNACode c = false) ∨
    (isAssetCode c = false ∧ isLiabCode c = true ∧ isNACode c = false) ∨
    (isAssetCode c = false ∧ isLiabCode c = false ∧ isNACode c = true) := by
  decide

/-! ## C10 -/

/-- C10: classification coerces every account code to its string
representation before the join, so a numeric code is classified exactly as
its string form; matching is by exact string equality, and a code with no
matching key yields null grap code and grap item rather than an error. -/
theorem c10_code_coercion :
    (∀ (n : ℤ) (desc : String) (d c v : ℚ),
        classify ⟨.intV n, desc, d, c, v⟩ = classify ⟨.strV (toString n), desc, d, c, v⟩) ∧
    (∀ r : TBRow, lookupMapping (pyStr r.code) = none →
        (classify r).grapCode = none ∧ (classify r).grapItem = none) := by
  constructor
  · intro n desc d c v
    rfl
  · intro r h
    unfold classify
    rw [h]
    exact ⟨rfl, rfl⟩

/-- Witness for C10: the integer code 1000 classifies exactly as the
string code `1000`, and the unmapped code `9999` yields null grap fields. -/
theorem c10_code_coercion_witness :
    classify ⟨.intV 1000, "Cash", 5, 0, 5⟩ = classify ⟨.strV "1000", "Cash", 5, 0, 5⟩ ∧
    (classify ⟨.strV "9999", "Unknown", 100, 0, 100⟩).grapCode = none := by
  refine ⟨c10_code_coercion.1 1000 "Cash" 5 0 5, ?_⟩
  exact (c10_code_coercion.2 ⟨.strV "9999", "Unknown", 100, 0, 100⟩ (by decide)).1

/-! ## C9 -/

/-- Counterexample to C9: `map_to_grap` does modify its input table; on a
table whose account code is the integer 1000, the code cell is the string
`1000` after the call. -/
theorem c9_classification_cex :
    (mapToGrap [⟨.intV 1000, "Cash", 1000, 0, 1000⟩]).1 ≠ [⟨.intV 1000, "Cash", 1000, 0, 1000⟩] := by
  intro h
  have h1 : ((mapToGrap [⟨.intV 1000, "Cash", 1000, 0, 1000⟩]).1.map (fun r => r.code))
      = [CellVal.strV "1000"] := rfl
  rw [h] at h1
  simp at h1

/-- C9 amended: `map_to_grap` mutates the input table exactly by coercing
each account-code cell to its string representation, leaving descriptions
and balances unchanged; the engine's mapping-table values are unchanged by
its key re-coercion; and a table whose codes are already strings is not
modified at all. -/
theorem c9_classification_amended (tb : List TBRow) :
    (mapToGrap tb).1 = tb.map coerceRow ∧
    (∀ r ∈ tb, (coerceRow r).desc = r.desc ∧ (coerceRow r).debit = r.debit ∧
      (coerceRow r).credit = r.credit ∧ (coerceRow r).net = r.net ∧
      (coerceRow r).code = .strV (pyStr r.code)) ∧
    mappingSchemaAfter = mappingSchema ∧
    ((∀ r ∈ tb, ∃ s, r.code = .strV s) → (mapToGrap tb).1 = tb) := by
  refine ⟨rfl, ?_, rfl, ?_⟩
  · intro r _
    exact ⟨rfl, rfl, rfl, rfl, rfl⟩
  · intro h
    show tb.map coerceRow = tb
    induction tb with
    | nil => rfl
    | cons r rest ih =>
        obtain ⟨s, hs⟩ := h r (List.mem_cons_self r rest)
        have hr : coerceRow r = r := by
          cases r
          simp_all [coerceRow, pyStr]
        have hrest : rest.map coerceRow = rest :=
          ih (fun x hx => h x (List.mem_cons_of_mem r hx))
        simp [hr, hrest]

/-- Witness for C9 amended: a table whose account codes are already
strings is returned unchanged. -/
theorem c9_classification_amended_witness :
    (mapToGrap [⟨.strV "1000", "Cash", 1000, 0, 1000⟩]).1
      = [⟨.strV "1000", "Cash", 1000, 0, 1000⟩] :=
  (c9_classification_amended [⟨.strV "1000", "Cash", 1000, 0, 1000⟩]).2.2.2
    (by intro r hr; simp at hr; exact ⟨"1000", by simp [hr]⟩)

/-! ## C8 -/

/-- Counterexample to C8: the rename is unconditional; with both the
`Account` variant and the canonical `Account Code` present, the variant is
still renamed and the canonical column is duplicated. -/
theorem c8_rename_cex :
    renameCols ["Account", "Account Code"] = ["Account Code", "Account Code"] ∧
    "Account" ∉ renameCols ["Account", "Account Code"] ∧
    (renameCols ["Account", "Account Code"]).count "Account Code" = 2 := by
  refine ⟨rfl, ?_, rfl⟩
  decide

/-- C8 amended: a known header variant is renamed to its canonical name
unconditionally, so when the canonical name is already present the rename
duplicates it (at least two occurrences result) instead of being skipped. -/
theorem c8_rename_amended (cols : List String)
    (h1 : "Account" ∈ cols) (h2 : "Account Code" ∈ cols) :
    2 ≤ (renameCols cols).count "Account Code" := by
  have ha : 1 ≤ cols.count "Account" := List.count_pos_iff.2 h1
  have hb : 1 ≤ cols.count "Account Code" := List.count_pos_iff.2 h2
  have := count_renameCols_ge cols
  omega

/-- Witness for C8 amended: applied to the header row with both labels. -/
theorem c8_rename_amended_witness :
    2 ≤ (renameCols ["Account", "Account Code"]).count "Account Code" :=
  c8_rename_amended ["Account", "Account Code"] (by decide) (by decide)

/-! ## C4 -/

/-- Counterexample to C4: with an `Account Code`, `Account Description`
and `Debit Balance` column but no credit and no net-balance column, the
reader fails even though the debit and credit columns are not both absent,
and no defaulting of the missing credit column to 0 takes place. -/
theorem c4_normalizer_cex :
    (readTBCols ["Account Code", "Account Description", "Debit Balance"]).isOk = false ∧
    "Debit Balance" ∈ renameCols ["Account Code", "Account Description", "Debit Balance"] ∧
    "Net Balance" ∉ renameCols ["Account Code", "Account Description", "Debit Balance"] := by
  refine ⟨rfl, by decide, by decide⟩

/-- C4 amended: after column renaming the reader succeeds exactly when the
required identification columns are present and either a net-balance
column exists or both the debit and the credit column are present (a
single missing balance column is an error, not a default of 0); the net
balance is computed as debit minus credit only when absent and an existing
net-balance value is never overwritten. -/
theorem c4_normalizer_amended :
    (∀ cols : List String,
        (readTBCols cols).isOk = true ↔
          (("Account Code" ∈ renameCols cols ∧ "Account Description" ∈ renameCols cols) ∧
            ("Net Balance" ∈ renameCols cols ∨
              ("Debit Balance" ∈ renameCols cols ∧ "Credit Balance" ∈ renameCols cols)))) ∧
    (∀ d c : ℚ, netAfterRead ⟨d, c, none⟩ = d - c) ∧
    (∀ d c v : ℚ, netAfterRead ⟨d, c, some v⟩ = v) := by
  refine ⟨?_, fun d c => rfl, fun d c v => rfl⟩
  intro cols
  unfold readTBCols
  split
  · rename_i h
    simp [Except.isOk, Except.toBool]
    exact fun hc hc2 => absurd ⟨hc, hc2⟩ h
  · rename_i h
    rw [not_not] at h
    split
    · rename_i hnet
      simp [Except.isOk, Except.toBool, h, hnet]
    · rename_i hnet
      split
      · rename_i hdc
        simp [Except.isOk, Except.toBool, h, hdc]
      · rename_i hdc
        simp [Except.isOk, Except.toBool, h, hnet, hdc]

/-! ## C5 -/

/-- C5: every ratio division is guarded; a denominator that is zero or
negative yields the ratio value 0 (the embedding is total, so no exception
and no non-finite value can arise). -/
theorem c5_division_guard (sofp : SOFP) (sofe : SOFE) :
    (currentLiabilitiesOf sofp ≤ 0 → (calcRatios sofp sofe).currentRatio = 0) ∧
    (netAssetsTotalOf sofp ≤ 0 → (calcRatios sofp sofe).debtToEquity = 0) ∧
    (revenueTotalOf sofe ≤ 0 → (calcRatios sofp sofe).operatingMargin = 0) ∧
    (assetsTotalOf sofp ≤ 0 → (calcRatios sofp sofe).returnOnAssets = 0) := by
  refine ⟨fun h => ?_, fun h => ?_, fun h => ?_, fun h => ?_⟩ <;>
    simp [calcRatios, if_neg (not_lt.2 h)]

/-- Witness for C5: with no liabilities at all (current liabilities 0, as
in Scenario D) and empty statements, every ratio evaluates to exactly 0. -/
theorem c5_division_guard_witness :
    (calcRatios ⟨[], [], []⟩ ⟨[], [], 0⟩).currentRatio = 0 ∧
    (calcRatios ⟨[], [], []⟩ ⟨[], [], 0⟩).debtToEquity = 0 ∧
    (calcRatios ⟨[], [], []⟩ ⟨[], [], 0⟩).operatingMargin = 0 ∧
    (calcRatios ⟨[], [], []⟩ ⟨[], [], 0⟩).returnOnAssets = 0 := by
  have h := c5_division_guard ⟨[], [], []⟩ ⟨[], [], 0⟩
  refine ⟨h.1 ?_, h.2.1 ?_, h.2.2.1 ?_, h.2.2.2 ?_⟩ <;>
    simp [currentLiabilitiesOf, netAssetsTotalOf, revenueTotalOf, assetsTotalOf, amountSum]

/-! ## C2 -/

/-- C2: whenever any account of the mapped table is unmapped (null grap
code), mapping validation fails with a `MappingError` carrying the first
unmapped account's code, and the processing gate refuses statement
generation, returning exactly the unmapped accounts as
`{account_code, account_description, net_balance}` records. -/
theorem c2_unmapped_blocks_generation (m : List MappedAccount) (a : MappedAccount)
    (rest : List MappedAccount)
    (h : m.filter (fun x => x.grapCode.isNone) = a :: rest) :
    validateGrapMapping m = .error ⟨(a :: rest).length, some a.accountCode⟩ ∧
    processGate m = .error ("Unmapped accounts detected", (a :: rest).map toRec) := by
  constructor
  · unfold validateGrapMapping
    rw [h]
  · unfold processGate
    rw [h]
    simp

/-- Witness for C2, Scenario B: the single classified account `9999` has no
mapping entry; validation raises with its code and processing returns that
one record. -/
theorem c2_unmapped_blocks_generation_witness :
    validateGrapMapping [classify ⟨.strV "9999", "Unknown", 100, 0, 100⟩]
      = .error ⟨1, some "9999"⟩ ∧
    processGate [classify ⟨.strV "9999", "Unknown", 100, 0, 100⟩]
      = .error ("Unmapped accounts detected", [⟨"9999", "Unknown", 100⟩]) :=
  c2_unmapped_blocks_generation _ (classify ⟨.strV "9999", "Unknown", 100, 0, 100⟩) [] rfl

/-! ## C7 -/

/-- Counterexample to C7: a table whose single row has an empty account
code fails validation with an error, not a warning. -/
theorem c7_warnings_cex :
    (validateTB emptyCodeRows).valid = false ∧
    (validateTB emptyCodeRows).errors = [.emptyCodes 1] :=
  ⟨rfl, rfl⟩

/-- C7 amended: duplicate account codes, accounts with both balances,
out-of-tolerance totals and negative balances are non-blocking warnings,
and a table exhibiting only those conditions validates with valid = true;
empty account codes, however, are blocking errors, and the error list can
only ever contain the empty-account-codes finding. -/
theorem c7_warnings_amended (df : List RawTB) :
    ((∀ r ∈ df, r.code ≠ "") → (validateTB df).valid = true) ∧
    (∀ i ∈ (validateTB df).errors, ∃ n, i = TBIssue.emptyCodes n) := by
  have herr : (validateTB df).errors = emptyCodeIssues df := rfl
  have hval : (validateTB df).valid = (emptyCodeIssues df).isEmpty := rfl
  constructor
  · intro h
    have hf : df.filter (fun r => r.code = "") = [] := by
      rw [List.filter_eq_nil_iff]
      intro r hr
      simpa using h r hr
    rw [hval]
    unfold emptyCodeIssues
    rw [hf]
    rfl
  · intro i hi
    rw [herr] at hi
    unfold emptyCodeIssues at hi
    split at hi
    · simp at hi
    · simp at hi
      exact ⟨_, hi⟩

/-- Witness for C7 amended: a table with duplicate codes, an account with
both balances, an 8-unit debit/credit mismatch and negative balances still
validates, every finding surfacing as a warning. -/
theorem c7_warnings_amended_witness :
    (validateTB warnOnlyRows).valid = true ∧
    (validateTB warnOnlyRows).warnings
      = [.duplicateCodes 2, .bothBalances 2, .imbalance 9 1,
          .negativeDebits 1, .negativeCredits 1] := by
  constructor
  · exact (c7_warnings_amended warnOnlyRows).1 (by decide)
  · have hw : (validateTB warnOnlyRows).warnings
        = duplicateIssues warnOnlyRows ++ balanceIssues warnOnlyRows
          ++ negativeIssues warnOnlyRows := rfl
    have hd : duplicateIssues warnOnlyRows = [.duplicateCodes 2] := rfl
    have hb : balanceIssues warnOnlyRows = [.bothBalances 2, .imbalance 9 1] := by
      norm_num [balanceIssues, warnOnlyRows, tbTolerance, List.filter]
    have hn : negativeIssues warnOnlyRows = [.negativeDebits 1, .negativeCredits 1] := by
      norm_num [negativeIssues, warnOnlyRows, List.filter]
    rw [hw, hd, hb, hn]
    rfl

/-! ## C6 -/

/-- C6: the performance builder takes revenue line items from the `REV-`
groups in absolute value, keeps the `EXP-` expense line items at natural
sign, and returns surplus = total revenue minus total expenses (the totals
being taken over the presented line items). -/
theorem c6_performance_builder (m : List MappedAccount) :
    (sofeOf m).revenue = ((aggregate m).filter (fun li => isRevCode li.grapCode)).map absItem ∧
    (sofeOf m).expenses = (aggregate m).filter (fun li => isExpCode li.grapCode) ∧
    (∀ li ∈ (sofeOf m).revenue, 0 ≤ li.amount) ∧
    (sofeOf m).surplus = amountSum (sofeOf m).revenue - amountSum (sofeOf m).expenses := by
  refine ⟨rfl, rfl, ?_, rfl⟩
  intro li hli
  obtain ⟨li0, _, hli0⟩ := List.mem_map.1 hli
  rw [← hli0]
  simp [absItem]

/-- Witness for C6, Scenario C: account 4100 with credit 5000 and account
5000 with debit 2000 yield the revenue line item 5000 (absolute value of
the credit-negative net balance), the expense line item 2000 at natural
sign, and surplus 3000. -/
theorem c6_performance_builder_witness :
    (sofeOf ((mapToGrap scenarioC).2)).revenue
      = [⟨"REV-001", "Revenue from Exchange Transactions", 5000⟩] ∧
    (sofeOf ((mapToGrap scenarioC).2)).expenses
      = [⟨"EXP-001", "Employee Costs", 2000⟩] ∧
    0 ≤ (5000 : ℚ) ∧
    (sofeOf ((mapToGrap scenarioC).2)).surplus = 3000 := by
  have h := c6_performance_builder ((mapToGrap scenarioC).2)
  have hfil : (aggregate ((mapToGrap scenarioC).2)).filter (fun li => isRevCode li.grapCode)
      = [⟨"REV-001", "Revenue from Exchange Transactions", -5000⟩] := rfl
  have hrev : (sofeOf ((mapToGrap scenarioC).2)).revenue
      = [⟨"REV-001", "Revenue from Exchange Transactions", 5000⟩] := by
    rw [h.1, hfil]
    norm_num [absItem]
  have hexp : (sofeOf ((mapToGrap scenarioC).2)).expenses
      = [⟨"EXP-001", "Employee Costs", 2000⟩] := h.2.1
  refine ⟨hrev, hexp, ?_, ?_⟩
  · have hmem : (⟨"REV-001", "Revenue from Exchange Transactions", 5000⟩ : LineItem)
        ∈ (sofeOf ((mapToGrap scenarioC).2)).revenue := by
      rw [hrev]; exact List.mem_singleton.2 rfl
    exact h.2.2.1 _ hmem
  · rw [h.2.2.2, hrev, hexp]
    norm_num [amountSum]

/-! ## C1 -/

/-- C1: the cash-flow builder computes, by the indirect method,
operating = surplus + depreciation (grap code exactly `EXP-002`) +
working-capital adjustment; investing is the `NCA-001` net balance only
when negative and zero when zero or positive (hence never positive);
financing is the sum of the `NCL-` net balances; and net movement is the
sum of the three totals. -/
theorem c1_cash_flow_builder (pos : SOFP) (sofe : SOFE) (m : List MappedAccount) :
    (buildCashFlow pos sofe m).operating
      = sofe.surplus + depreciationOf sofe + workingCapitalAdj m ∧
    (buildCashFlow pos sofe m).investing = (if ncaNet m < 0 then ncaNet m else 0) ∧
    (buildCashFlow pos sofe m).investing ≤ 0 ∧
    (buildCashFlow pos sofe m).financing = financingOf m ∧
    (buildCashFlow pos sofe m).netMovement
      = (buildCashFlow pos sofe m).operating + (buildCashFlow pos sofe m).investing
        + (buildCashFlow pos sofe m).financing := by
  refine ⟨rfl, rfl, ?_, rfl, rfl⟩
  show (if ncaNet m < 0 then ncaNet m else 0) ≤ 0
  split
  · rename_i hlt
    exact le_of_lt hlt
  · exact le_refl 0

/-! ## C3 -/

/-- Counterexample to C3: a balanced, fully mapped trial balance with a
debit-balance liability (credit 100 on cash, debit 100 on payables) has
assets total -100 but liabilities + net assets total 100, because the
liability amount is presented in absolute value; the balance identity
fails by 200 despite the debit and credit totals agreeing exactly. -/
theorem c3_balance_identity_cex :
    |(debitLiabRows.map (fun r => r.debit)).sum
      - (debitLiabRows.map (fun r => r.credit)).sum| ≤ 1 / 100 ∧
    (∀ r ∈ debitLiabRows, (lookupMapping (pyStr r.code)).isSome = true) ∧
    (∀ r ∈ debitLiabRows, r.net = r.debit - r.credit) ∧
    ¬ (|assetsTotalOf (sofpOf ((mapToGrap debitLiabRows).2))
        - (liabilitiesTotalOf (sofpOf ((mapToGrap debitLiabRows).2))
          + netAssetsTotalOf (sofpOf ((mapToGrap debitLiabRows).2)))| ≤ 1 / 100) := by
  refine ⟨?_, ?_, ?_, ?_⟩
  · norm_num [debitLiabRows]
  · intro r hr
    simp [debitLiabRows] at hr
    rcases hr with h | h <;> subst h <;> rfl
  · intro r hr
    simp [debitLiabRows] at hr
    rcases hr with h | h <;> subst h <;> norm_num
  · have hassets : (sofpOf ((mapToGrap debitLiabRows).2)).assets
        = [⟨"CA-001", "Cash and Cash Equivalents", -100⟩] := rfl
    have hliab : (sofpOf ((mapToGrap debitLiabRows).2)).liabilities
        = [absItem ⟨"CL-001", "Payables from Exchange Transactions", 100⟩] := rfl
    have hna : (sofpOf ((mapToGrap debitLiabRows).2)).netAssets = [] := rfl
    rw [assetsTotalOf, liabilitiesTotalOf, netAssetsTotalOf, hassets, hliab, hna]
    norm_num [amountSum, absItem]

/-- C3 amended: for a trial balance whose rows all carry the normalizer's
net balance, whose accounts all map to financial-position codes, whose
liability and net-asset line items aggregate to nonpositive (credit) net
balances, and whose debit and credit totals agree within the 0.01
tolerance, the Statement of Financial Position satisfies assets total =
liabilities total + net assets total within the same tolerance (the
absolute-value presentation then being exact negation); Scenario A is the
witness with totals 1000, 400 and 600. -/
theorem c3_balance_identity_amended (rows : List TBRow)
    (hnet : ∀ r ∈ rows, r.net = r.debit - r.credit)
    (hmap : ∀ r ∈ rows, ∃ p, lookupMapping (pyStr r.code) = some p ∧ p.1 ∈ sofpCodes)
    (hnonpos : ∀ li ∈ aggregate ((mapToGrap rows).2),
        (isLiabCode li.grapCode || isNACode li.grapCode) = true → li.amount ≤ 0)
    (hbal : |(rows.map (fun r => r.debit)).sum - (rows.map (fun r => r.credit)).sum| ≤ 1 / 100) :
    |assetsTotalOf (sofpOf ((mapToGrap rows).2))
      - (liabilitiesTotalOf (sofpOf ((mapToGrap rows).2))
        + netAssetsTotalOf (sofpOf ((mapToGrap rows).2)))| ≤ 1 / 100 := by
  have hacc : ∀ a ∈ (mapToGrap rows).2,
      ∃ gc gi, a.grapCode = some gc ∧ a.grapItem = some gi ∧ gc ∈ sofpCodes := by
    intro a ha
    obtain ⟨r, hr, rfl⟩ := List.mem_map.1 ha
    obtain ⟨⟨gc, gi⟩, hp, hps⟩ := hmap r hr
    exact ⟨gc, gi, by simp [classify, hp], by simp [classify, hp], hps⟩
  have hA : assetsTotalOf (sofpOf ((mapToGrap rows).2))
      = (((mapToGrap rows).2.filter (accCat isAssetCode)).map (fun a => a.netBalance)).sum :=
    aggregate_filter_sum isAssetCode ((mapToGrap rows).2)
  have hLn : ∀ li ∈ (aggregate ((mapToGrap rows).2)).filter (fun li => isLiabCode li.grapCode),
      li.amount ≤ 0 := by
    intro li hli
    obtain ⟨hmem, hcond⟩ := List.mem_filter.1 hli
    exact hnonpos li hmem (by simp [hcond])
  have hNn : ∀ li ∈ (aggregate ((mapToGrap rows).2)).filter (fun li => isNACode li.grapCode),
      li.amount ≤ 0 := by
    intro li hli
    obtain ⟨hmem, hcond⟩ := List.mem_filter.1 hli
    exact hnonpos li hmem (by simp [hcond])
  have hL : liabilitiesTotalOf (sofpOf ((mapToGrap rows).2))
      = -(((mapToGrap rows).2.filter (accCat isLiabCode)).map (fun a => a.netBalance)).sum := by
    show amountSum (((aggregate ((mapToGrap rows).2)).filter
        (fun li => isLiabCode li.grapCode)).map absItem) = _
    rw [amountSum_map_absItem _ hLn, aggregate_filter_sum]
  have hN : netAssetsTotalOf (sofpOf ((mapToGrap rows).2))
      = -(((mapToGrap rows).2.filter (accCat isNACode)).map (fun a => a.netBalance)).sum := by
    show amountSum (((aggregate ((mapToGrap rows).2)).filter
        (fun li => isNACode li.grapCode)).map absItem) = _
    rw [amountSum_map_absItem _ hNn, aggregate_filter_sum]
  have hdisj1 : ∀ a ∈ (mapToGrap rows).2,
      ¬(accCat isLiabCode a = true ∧ accCat isNACode a = true) := by
    intro a ha hcontra
    obtain ⟨gc, gi, h1, h2, hs⟩ := hacc a ha
    have e1 : accCat isLiabCode a = isLiabCode gc := by
      unfold accCat; rw [h1, h2]
    have e2 : accCat isNACode a = isNACode gc := by
      unfold accCat; rw [h1, h2]
    rw [e1, e2] at hcontra
    rcases sofp_code_cases gc hs with ⟨_, hb, hc⟩ | ⟨_, hb, hc⟩ | ⟨_, hb, hc⟩ <;>
      simp [hb, hc] at hcontra
  have hdisj2 : ∀ a ∈ (mapToGrap rows).2,
      ¬(accCat isAssetCode a = true ∧ (accCat isLiabCode a || accCat isNACode a) = true) := by
    intro a ha hcontra
    obtain ⟨gc, gi, h1, h2, hs⟩ := hacc a ha
    have e0 : accCat isAssetCode a = isAssetCode gc := by
      unfold accCat; rw [h1, h2]
    have e1 : accCat isLiabCode a = isLiabCode gc := by
      unfold accCat; rw [h1, h2]
    have e2 : accCat isNACode a = isNACode gc := by
      unfold accCat; rw [h1, h2]
    rw [e0, e1, e2] at hcontra
    rcases sofp_code_cases gc hs with ⟨ha2, hb, hc⟩ | ⟨ha2, hb, hc⟩ | ⟨ha2, hb, hc⟩ <;>
      simp [ha2, hb, hc] at hcontra
  have hcover : (mapToGrap rows).2.filter
      (fun a => accCat isAssetCode a || (accCat isLiabCode a || accCat isNACode a))
      = (mapToGrap rows).2 := by
    rw [List.filter_eq_self]
    intro a ha
    obtain ⟨gc, gi, h1, h2, hs⟩ := hacc a ha
    have e0 : accCat isAssetCode a = isAssetCode gc := by
      unfold accCat; rw [h1, h2]
    have e1 : accCat isLiabCode a = isLiabCode gc := by
      unfold accCat; rw [h1, h2]
    have e2 : accCat isNACode a = isNACode gc := by
      unfold accCat; rw [h1, h2]
    rw [e0, e1, e2]
    rcases sofp_code_cases gc hs with ⟨ha2, _, _⟩ | ⟨_, hb, _⟩ | ⟨_, _, hc⟩
    · simp [ha2]
    · simp [hb]
    · simp [hc]
  have hsum2 : (((mapToGrap rows).2.filter
        (fun a => accCat isLiabCode a || accCat isNACode a)).map (fun a => a.netBalance)).sum
      = (((mapToGrap rows).2.filter (accCat isLiabCode)).map (fun a => a.netBalance)).sum
        + (((mapToGrap rows).2.filter (accCat isNACode)).map (fun a => a.netBalance)).sum :=
    netSum_filter_or _ _ _ hdisj1
  have hsum1 : (((mapToGrap rows).2.filter
        (fun a => accCat isAssetCode a || (accCat isLiabCode a || accCat isNACode a))).map
        (fun a => a.netBalance)).sum
      = (((mapToGrap rows).2.filter (accCat isAssetCode)).map (fun a => a.netBalance)).sum
        + (((mapToGrap rows).2.filter
            (fun a => accCat isLiabCode a || accCat isNACode a)).map (fun a => a.netBalance)).sum :=
    netSum_filter_or _ _ _ hdisj2
  have hall : (((mapToGrap rows).2).map (fun a => a.netBalance)).sum
      = (rows.map (fun r => r.debit)).sum - (rows.map (fun r => r.credit)).sum := by
    rw [mapped_net_sum rows, net_sum_split rows hnet]
  have hval : assetsTotalOf (sofpOf ((mapToGrap rows).2))
      - (liabilitiesTotalOf (sofpOf ((mapToGrap rows).2))
        + netAssetsTotalOf (sofpOf ((mapToGrap rows).2)))
      = (rows.map (fun r => r.debit)).sum - (rows.map (fun r => r.credit)).sum := by
    rw [hA, hL, hN]
    rw [hcover] at hsum1
    rw [hall] at hsum1
    linarith [hsum1, hsum2]
  rw [hval]
  exact hbal

/-- Witness for C3 amended, Scenario A: Cash 1000 debit, Payables 400
credit, Equity 600 credit give assets 1000, liabilities 400, net assets
600, and the balance identity holds within the tolerance. -/
theorem c3_balance_identity_amended_witness :
    assetsTotalOf (sofpOf ((mapToGrap scenarioA).2)) = 1000 ∧
    liabilitiesTotalOf (sofpOf ((mapToGrap scenarioA).2)) = 400 ∧
    netAssetsTotalOf (sofpOf ((mapToGrap scenarioA).2)) = 600 ∧
    |assetsTotalOf (sofpOf ((mapToGrap scenarioA).2))
      - (liabilitiesTotalOf (sofpOf ((mapToGrap scenarioA).2))
        + netAssetsTotalOf (sofpOf ((mapToGrap scenarioA).2)))| ≤ 1 / 100 := by
  have hassets : (sofpOf ((mapToGrap scenarioA).2)).assets
      = [⟨"CA-001", "Cash and Cash Equivalents", 1000⟩] := rfl
  have hliab : (sofpOf ((mapToGrap scenarioA).2)).liabilities
      = [absItem ⟨"CL-001", "Payables from Exchange Transactions", -400⟩] := rfl
  have hna : (sofpOf ((mapToGrap scenarioA).2)).netAssets
      = [absItem ⟨"NA-001", "Accumulated Surplus/(Deficit)", -600⟩] := rfl
  refine ⟨?_, ?_, ?_, ?_⟩
  · rw [assetsTotalOf, hassets]
    norm_num [amountSum]
  · rw [liabilitiesTotalOf, hliab]
    norm_num [amountSum, absItem]
  · rw [netAssetsTotalOf, hna]
    norm_num [amountSum, absItem]
  · refine c3_balance_identity_amended scenarioA ?_ ?_ ?_ ?_
    · intro r hr
      simp [scenarioA] at hr
      rcases hr with h | h | h <;> subst h <;> norm_num
    · intro r hr
      simp [scenarioA] at hr
      rcases hr with h | h | h <;> subst h
      · exact ⟨("CA-001", "Cash and Cash Equivalents"), rfl, by decide⟩
      · exact ⟨("CL-001", "Payables from Exchange Transactions"), rfl, by decide⟩
      · exact ⟨("NA-001", "Accumulated Surplus/(Deficit)"), rfl, by decide⟩
    · have hagg : aggregate ((mapToGrap scenarioA).2)
          = [⟨"CA-001", "Cash and Cash Equivalents", 1000⟩,
              ⟨"CL-001", "Payables from Exchange Transactions", -400⟩,
              ⟨"NA-001", "Accumulated Surplus/(Deficit)", -600⟩] := rfl
      rw [hagg]
      intro li hli
      simp at hli
      rcases hli with h | h | h <;> subst h <;> intro hcond
      · exact absurd hcond (by decide)
      · norm_num
      · norm_num
    · norm_num [scenarioA]

end FinReport
